import Mathlib

/-!
Shallow embedding of the PIF JSON generator (`src/pif_generator.py`).

The Python module is a single class `PIFGenerator` whose observable core is:

* `parse_system_prop`  : line-oriented `key=value` parsing into a dict
* `extract_security_patch` : regex-based derivation of a patch date
* `validate_pif`       : validation of a built profile dict
* `build_pif`          : schema-specific field derivation (legacy / new)
* `generate`           : output-filename computation (the file I/O around it
                         is outside the verified core)

Python dicts are modelled as association lists where the *last* binding of a
key wins (matching dict insertion/overwrite order).  Python `x or y` on
strings/None is modelled by skipping `None` and `""` (falsy) only; note that a
whitespace-only string is *truthy* in Python.  `str.strip()` is modelled by
`pyStrip` (the ASCII whitespace set; Python additionally strips some Unicode
spaces, immaterial for these inputs).  Python `int(...)` literals are
modelled by `pyInt`, including sign handling and digit-group underscores.
-/

/-- A parsed property map: insertion-ordered bindings, later bindings of the
same key shadow earlier ones (Python dict overwrite semantics). -/
abbrev PropMap : Type := List (String × String)

/-- Dict lookup: the value of the *last* binding of `k`, if any
(`props.get(k)` on the dict built by repeated assignment). -/
def getProp : PropMap → String → Option String
  | [], _ => none
  | (k', v) :: rest, k =>
    match getProp rest k with
    | some r => some r
    | none => if k' = k then some v else none

/-- `props.get(k, d)`: the present value even when it is empty, else `d`. -/
def propGetD (props : PropMap) (k d : String) : String :=
  (getProp props k).getD d

/-- Python `props.get(k1) or props.get(k2) or ... or d`: first candidate whose
value is present and non-empty (truthiness *before* any trimming), else `d`. -/
def chainGet (props : PropMap) : List String → String → String
  | [], d => d
  | k :: ks, d =>
    match getProp props k with
    | some v => if v = "" then chainGet props ks d else v
    | none => chainGet props ks d

/-- The whitespace characters `str.strip()` (and `int(...)`) remove. -/
def isPySpace (c : Char) : Bool :=
  c = ' ' || c = '\t' || c = '\n' || c = '\r' || c = '\x0b' || c = '\x0c'

def trimChars (l : List Char) : List Char :=
  ((l.dropWhile isPySpace).reverse.dropWhile isPySpace).reverse

/-- Python `s.strip()`. -/
def pyStrip (s : String) : String :=
  String.mk (trimChars s.data)

/-- Python `s.startswith('#')`. -/
def startsWithHash (s : String) : Bool :=
  match s.data with
  | '#' :: _ => true
  | _ => false

/-- Line splitting for `content.splitlines()`, covering `\n`, `\r\n`, `\r`.
(When the text ends in a newline this emits one extra empty segment that
Python omits; empty lines are discarded by the parser so the resulting
property map is unaffected.) -/
def splitLinesAux : List Char → List Char → List String
  | acc, [] => [String.mk acc.reverse]
  | acc, '\r' :: '\n' :: rest => String.mk acc.reverse :: splitLinesAux [] rest
  | acc, '\r' :: rest => String.mk acc.reverse :: splitLinesAux [] rest
  | acc, '\n' :: rest => String.mk acc.reverse :: splitLinesAux [] rest
  | acc, c :: rest => splitLinesAux (c :: acc) rest

def splitLines (s : String) : List String :=
  splitLinesAux [] s.data

/-- `line.split('=', 1)`: everything before the first `'='` and everything
after it (assuming a `'='` occurs; otherwise the second component is empty). -/
def splitFirstEq (s : String) : String × String :=
  let cs := s.data
  let k := cs.takeWhile (fun c => c ≠ '=')
  (String.mk k, String.mk (cs.drop (k.length + 1)))

/-- One iteration of the `parse_system_prop` loop: strip the line, keep it
only if it contains `'='` and does not start with `'#'`, then split on the
first `'='` and bind the stripped key to the stripped value. -/
def parseLine (props : PropMap) (rawLine : String) : PropMap :=
  let line := pyStrip rawLine
  if line.data.contains '=' && !(startsWithHash line) then
    let kv := splitFirstEq line
    props ++ [(pyStrip kv.1, pyStrip kv.2)]
  else
    props

/-- `parse_system_prop(content)`. -/
def parse_system_prop (content : String) : PropMap :=
  (splitLines content).foldl parseLine []

def digitVal (c : Char) : Nat := c.toNat - 48

/-- Digits of an `int(...)` literal after the first digit: plain digits with
single underscores allowed between digits. -/
def digitsVal (acc : Nat) : List Char → Option Nat
  | [] => some acc
  | c :: cs =>
    if c.isDigit then digitsVal (acc * 10 + digitVal c) cs
    else if c = '_' then
      match cs with
      | c2 :: cs2 => if c2.isDigit then digitsVal (acc * 10 + digitVal c2) cs2 else none
      | [] => none
    else none

/-- The digit part of an `int(...)` literal: must start with a digit. -/
def startDigits : List Char → Option Nat
  | [] => none
  | c :: cs => if c.isDigit then digitsVal (digitVal c) cs else none

def pyIntChars (l : List Char) : Option Int :=
  match l with
  | [] => none
  | c :: cs =>
    if c = '+' then (startDigits cs).map (fun n => (n : Int))
    else if c = '-' then (startDigits cs).map (fun n => -(n : Int))
    else (startDigits (c :: cs)).map (fun n => (n : Int))

/-- Python `int(s)` on a string: strip surrounding whitespace, optional single
sign, then a digit sequence; `none` when `int` would raise `ValueError`. -/
def pyInt (s : String) : Option Int :=
  pyIntChars (trimChars s.data)

/-- A match of `\.(\d{2})(\d{2})(\d{2})\.` anchored at the head of the list:
the three two-digit capture groups. -/
def dateAt (l : List Char) : Option (String × String × String) :=
  match l with
  | c0 :: a :: b :: c :: d :: e :: f :: c7 :: _ =>
    if c0 = '.' && a.isDigit && b.isDigit && c.isDigit && d.isDigit &&
        e.isDigit && f.isDigit && c7 = '.' then
      some (String.mk [a, b], String.mk [c, d], String.mk [e, f])
    else none
  | _ => none

/-- `re.search(r'\.(\d{2})(\d{2})(\d{2})\.', s)`: leftmost match. -/
def searchDate : List Char → Option (String × String × String)
  | [] => none
  | c :: cs =>
    match dateAt (c :: cs) with
    | some r => some r
    | none => searchDate cs

/-- `f"20{year}-{month}-{day}"`. -/
def fmtDate : String × String × String → String
  | (y, m, d) => "20" ++ y ++ "-" ++ m ++ "-" ++ d

/-- A match of `/([A-Z0-9]+\.\d{6}\.[^/]+)/` anchored at the head of the
list: the capture group.  All quantifiers are forced (the classes exclude the
characters that follow them), so no backtracking arises. -/
def fpSegAt (l : List Char) : Option (List Char) :=
  match l with
  | '/' :: rest =>
    let p1 := rest.span (fun c => ('A' ≤ c && c ≤ 'Z') || c.isDigit)
    if p1.1.isEmpty then none
    else
      match p1.2 with
      | '.' :: r2 =>
        match r2 with
        | a :: b :: c :: d :: e :: f :: r3 =>
          if a.isDigit && b.isDigit && c.isDigit && d.isDigit && e.isDigit && f.isDigit then
            match r3 with
            | '.' :: r4 =>
              let p2 := r4.span (fun c => c ≠ '/')
              if p2.1.isEmpty then none
              else
                match p2.2 with
                | '/' :: _ => some (p1.1 ++ '.' :: a :: b :: c :: d :: e :: f :: '.' :: p2.1)
                | _ => none
            | _ => none
          else none
        | _ => none
      | _ => none
  | _ => none

/-- `re.search(r'/([A-Z0-9]+\.\d{6}\.[^/]+)/', s)`: leftmost match. -/
def searchFpSeg : List Char → Option (List Char)
  | [] => none
  | c :: cs =>
    match fpSegAt (c :: cs) with
    | some r => some r
    | none => searchFpSeg cs

/-- `extract_security_patch(fingerprint, build_id)`: date token from the build
id first; only when that yields nothing, from the first fingerprint segment
matching the build-id shape; else the empty string. -/
def extract_security_patch (fingerprint build_id : String) : String :=
  let fromBid : Option String :=
    if build_id = "" then none
    else (searchDate build_id.data).map fmtDate
  match fromBid with
  | some r => r
  | none =>
    let fromFp : Option String :=
      if fingerprint = "" then none
      else
        match searchFpSeg fingerprint.data with
        | some seg => (searchDate seg).map fmtDate
        | none => none
    fromFp.getD ""

/-- `output_format`: `'legacy'` (8 fields) or `'new'` (extended, 20 fields). -/
inductive OutputFormat where
  | legacy
  | new
deriving DecidableEq, Repr

/-- The errors the core raises (all `ValueError` in Python, distinguished by
their message): the two "No ... found in system.prop" raises in `build_pif`,
the raises inside `validate_pif`, and the uncaught `int(...)` failure when a
source SDK value is not an integer literal. -/
inductive BuildError where
  | missingRequiredField : String → BuildError
  | validationError : String → BuildError
  | invalidIntLiteral : String → BuildError
deriving DecidableEq, Repr

/-- The built profile dict.  The six core fields are present under both
schemas; the rest are `none` exactly when the key is absent from the dict. -/
structure Pif where
  ID : Option String := none
  MANUFACTURER : String
  MODEL : String
  FINGERPRINT : String
  BRAND : String
  PRODUCT : String
  DEVICE : String
  SECURITY_PATCH : String
  FIRST_API_LEVEL : Option String := none
  DEVICE_INITIAL_SDK_INT : Option String := none
  TYPE : Option String := none
  TAG : Option String := none
  RELEASE : Option String := none
  DEBUG : Option Bool := none
  spoofBuild : Option String := none
  spoofProps : Option String := none
  spoofProvider : Option String := none
  spoofSignature : Option String := none
  spoofVendingSdk : Option String := none
  verboseLogs : Option String := none
deriving DecidableEq, Repr

/-- The `FIRST_API_LEVEL` / `DEVICE_INITIAL_SDK_INT` rule of `validate_pif`:
`int(value)` must succeed and the result must not be `< 21`. -/
def checkApiLevel (s : String) : Bool :=
  match pyInt s with
  | some n => decide (21 ≤ n)
  | none => false

def apiFieldOk : Option String → Bool
  | none => true
  | some s => checkApiLevel s

/-- The `SECURITY_PATCH` rule of `validate_pif`: empty, or exactly 10
characters long. -/
def checkSecurityPatch (s : String) : Bool :=
  s == "" || s.length == 10

/-- The required-field loop of `validate_pif`: the first required field whose
value is empty or whitespace-only (`ID` is appended to the list only for the
new format). -/
def firstEmptyRequired (fmt : OutputFormat) (pif : Pif) : Option String :=
  if (pyStrip pif.MANUFACTURER) = "" then some "MANUFACTURER"
  else if (pyStrip pif.MODEL) = "" then some "MODEL"
  else if (pyStrip pif.FINGERPRINT) = "" then some "FINGERPRINT"
  else if (pyStrip pif.BRAND) = "" then some "BRAND"
  else if (pyStrip pif.PRODUCT) = "" then some "PRODUCT"
  else if (pyStrip pif.DEVICE) = "" then some "DEVICE"
  else if fmt = OutputFormat.new && pyStrip (pif.ID.getD "") = "" then some "ID"
  else none

/-- `validate_pif(pif)`: required-field check, the two SDK-level checks, then
the security-patch length check, failing at the first violated rule. -/
def validate_pif (fmt : OutputFormat) (pif : Pif) : Except BuildError Unit :=
  match firstEmptyRequired fmt pif with
  | some f => Except.error (BuildError.validationError f)
  | none =>
    if !apiFieldOk pif.FIRST_API_LEVEL then
      Except.error (BuildError.validationError "FIRST_API_LEVEL")
    else if !apiFieldOk pif.DEVICE_INITIAL_SDK_INT then
      Except.error (BuildError.validationError "DEVICE_INITIAL_SDK_INT")
    else if !checkSecurityPatch pif.SECURITY_PATCH then
      Except.error (BuildError.validationError "SECURITY_PATCH")
    else Except.ok ()

/- Candidate key lists, in the exact order the `or`-chains consult them. -/

def legacyFpKeys : List String :=
  ["ro.build.fingerprint", "ro.product.build.fingerprint",
   "ro.bootimage.build.fingerprint", "ro.vendor.build.fingerprint",
   "ro.system.build.fingerprint"]

def legacyProductKeys : List String :=
  ["ro.build.product", "ro.product.device", "ro.product.name", "ro.product.board"]

def legacyDeviceKeys : List String :=
  ["ro.product.device", "ro.build.product", "ro.product.board"]

def legacyApiKeys : List String :=
  ["ro.product.first_api_level", "ro.board.first_api_level", "ro.board.api_level",
   "ro.build.version.sdk", "ro.system.build.version.sdk"]

def securityPatchKeys : List String :=
  ["ro.build.version.security_patch", "ro.vendor.build.security_patch"]

def newFpKeys : List String :=
  ["ro.system_ext.build.fingerprint", "ro.system.build.fingerprint",
   "ro.build.fingerprint", "ro.product.build.fingerprint",
   "ro.bootimage.build.fingerprint", "ro.vendor.build.fingerprint",
   "ro.system_dlkm.build.fingerprint"]

def newBuildIdKeys : List String :=
  ["ro.system_ext.build.id", "ro.system.build.id", "ro.build.id",
   "ro.vendor.build.id", "ro.system_dlkm.build.id"]

def newProductKeys : List String :=
  ["ro.product.system_ext.name", "ro.product.system.name", "ro.product.name",
   "ro.build.product", "ro.product.system_ext.device", "ro.product.device",
   "ro.product.board"]

def newDeviceKeys : List String :=
  ["ro.product.system_ext.device", "ro.product.system.device",
   "ro.product.device", "ro.build.product", "ro.product.board"]

def newBrandKeys : List String :=
  ["ro.product.system_ext.brand", "ro.product.system.brand", "ro.product.brand"]

def newManufacturerKeys : List String :=
  ["ro.product.system_ext.manufacturer", "ro.product.system.manufacturer",
   "ro.product.manufacturer"]

def newModelKeys : List String :=
  ["ro.product.system_ext.model", "ro.product.system.model", "ro.product.model"]

def newApiKeys : List String :=
  ["ro.product.first_api_level", "ro.board.first_api_level", "ro.board.api_level",
   "ro.system_ext.build.version.sdk", "ro.system.build.version.sdk",
   "ro.build.version.sdk"]

def newTypeKeys : List String :=
  ["ro.system_ext.build.type", "ro.system.build.type", "ro.build.type"]

def newTagKeys : List String :=
  ["ro.system_ext.build.tags", "ro.system.build.tags", "ro.build.tags"]

def newReleaseKeys : List String :=
  ["ro.system_ext.build.version.release", "ro.system.build.version.release",
   "ro.build.version.release", "ro.build.version.release_or_codename"]

/-- The fingerprint candidates of a schema. -/
def fpKeys : OutputFormat → List String
  | OutputFormat.legacy => legacyFpKeys
  | OutputFormat.new => newFpKeys

/-- `build_pif(props)` with `output_format == 'legacy'`. -/
def build_pif_legacy (props : PropMap) : Except BuildError Pif :=
  let fingerprint := pyStrip (chainGet props legacyFpKeys "")
  if fingerprint = "" then
    Except.error (BuildError.missingRequiredField "fingerprint")
  else
    let product := pyStrip (chainGet props legacyProductKeys "")
    let device := pyStrip (chainGet props legacyDeviceKeys "")
    let first_api_level := pyStrip (chainGet props legacyApiKeys "0")
    match pyInt first_api_level with
    | none => Except.error (BuildError.invalidIntLiteral first_api_level)
    | some n =>
      let pif : Pif :=
        { MANUFACTURER := pyStrip (propGetD props "ro.product.manufacturer" "Google")
          MODEL := pyStrip (propGetD props "ro.product.model" "Unknown")
          FINGERPRINT := fingerprint
          BRAND := pyStrip (propGetD props "ro.product.brand" "google")
          PRODUCT := product
          DEVICE := device
          SECURITY_PATCH := pyStrip (chainGet props securityPatchKeys "")
          FIRST_API_LEVEL := some (toString n) }
      match validate_pif OutputFormat.legacy pif with
      | Except.error e => Except.error e
      | Except.ok _ => Except.ok pif

/-- `build_pif(props)` with `output_format == 'new'` (extended). -/
def build_pif_new (props : PropMap) : Except BuildError Pif :=
  let fingerprint := pyStrip (chainGet props newFpKeys "")
  if fingerprint = "" then
    Except.error (BuildError.missingRequiredField "fingerprint")
  else
    let build_id := pyStrip (chainGet props newBuildIdKeys "")
    if build_id = "" then
      Except.error (BuildError.missingRequiredField "build ID")
    else
      let product := pyStrip (chainGet props newProductKeys "")
      let device := pyStrip (chainGet props newDeviceKeys "")
      let brand := pyStrip (chainGet props newBrandKeys "google")
      let manufacturer := pyStrip (chainGet props newManufacturerKeys "Google")
      let model := pyStrip (chainGet props newModelKeys "Unknown")
      let device_initial_sdk := pyStrip (chainGet props newApiKeys "0")
      let build_type := pyStrip (chainGet props newTypeKeys "user")
      let build_tags := pyStrip (chainGet props newTagKeys "release-keys")
      let release := pyStrip (chainGet props newReleaseKeys "")
      let direct_patch := pyStrip (chainGet props securityPatchKeys "")
      let security_patch :=
        if direct_patch = "" then extract_security_patch fingerprint build_id
        else direct_patch
      let debuggable := pyStrip (propGetD props "ro.debuggable" "0")
      let is_debug := build_type = "userdebug" || build_type = "eng" || debuggable = "1"
      match pyInt device_initial_sdk with
      | none => Except.error (BuildError.invalidIntLiteral device_initial_sdk)
      | some n =>
        let pif : Pif :=
          { ID := some build_id
            BRAND := brand
            DEVICE := device
            MANUFACTURER := manufacturer
            FINGERPRINT := fingerprint
            MODEL := model
            PRODUCT := product
            SECURITY_PATCH := security_patch
            DEVICE_INITIAL_SDK_INT := some (toString n)
            TYPE := some build_type
            TAG := some build_tags
            RELEASE := some release
            DEBUG := some is_debug
            spoofBuild := some "1"
            spoofProps := some "0"
            spoofProvider := some "0"
            spoofSignature := some "0"
            spoofVendingSdk := some "0"
            verboseLogs := some "0" }
        match validate_pif OutputFormat.new pif with
        | Except.error e => Except.error e
        | Except.ok _ => Except.ok pif

/-- `build_pif(props)`: schema-specific derivation followed by validation; a
profile is returned only after `validate_pif` passes. -/
def build_pif (fmt : OutputFormat) (props : PropMap) : Except BuildError Pif :=
  match fmt with
  | OutputFormat.legacy => build_pif_legacy props
  | OutputFormat.new => build_pif_new props

/-- `self.prefix` as computed in `__init__`. -/
def prefixFor (repo_type : String) : String :=
  if repo_type = "experimental" then "EXPERIMENTAL_" else "Stable_PIF_"

/-- `zip_name.replace('.zip', '')`: every occurrence of `".zip"` is removed,
scanning left to right. -/
def removeZip (l : List Char) : List Char :=
  match l with
  | [] => []
  | '.' :: 'z' :: 'i' :: 'p' :: rest => removeZip rest
  | c :: cs => c :: removeZip cs

/-- The filename computed and persisted by `generate`:
`f"{self.prefix}{zip_name.replace('.zip', '')}.json"`. -/
def generate_filename (repo_type zip_name : String) : String :=
  prefixFor repo_type ++ String.mk (removeZip zip_name.data) ++ ".json"

/-- Head-anchored occurrence of the pattern `".zip"`. -/
def zipAtFront : List Char → Bool
  | '.' :: 'z' :: 'i' :: 'p' :: _ => true
  | _ => false

/-- Whether `".zip"` occurs anywhere in the character list. -/
def containsZip : List Char → Bool
  | [] => false
  | c :: cs => zipAtFront (c :: cs) || containsZip cs

/-- One step of reading a decimal numeral left to right. -/
def digitStep (a : Nat) (c : Char) : Nat := a * 10 + digitVal c

/-- `10 ^ (number of decimal digits of n)`. -/
def tenPow (n : Nat) : Nat :=
  if h : n < 10 then 10 else 10 * tenPow (n / 10)
decreasing_by
  exact Nat.div_lt_self (by omega) (by omega)

/-- The property text of the spec's end-to-end scenario A. -/
def scenarioAText : String :=
  "ro.build.fingerprint=google/sunfish/sunfish:11/RQ3A.211001.001/7641976:user/release-keys\nro.product.manufacturer=Google\nro.product.model=Pixel 4a\nro.product.device=sunfish\nro.build.version.sdk=30"

/-- What `build_pif` actually returns on scenario A (note `PRODUCT`, which is
served by the `ro.product.device` candidate of the legacy product chain). -/
def scenarioAPif : Pif :=
  { MANUFACTURER := "Google"
    MODEL := "Pixel 4a"
    FINGERPRINT := "google/sunfish/sunfish:11/RQ3A.211001.001/7641976:user/release-keys"
    BRAND := "google"
    PRODUCT := "sunfish"
    DEVICE := "sunfish"
    SECURITY_PATCH := ""
    FIRST_API_LEVEL := some "30" }

/-- A legacy input whose first direct security-patch candidate is bound to a
whitespace-only value and whose second is bound to a full date. -/
def c1props : PropMap :=
  [("ro.build.fingerprint", "google/x"), ("ro.product.device", "dev"),
   ("ro.build.version.sdk", "30"), ("ro.build.version.security_patch", " "),
   ("ro.vendor.build.security_patch", "2025-01-01")]

/-- A profile whose `FIRST_API_LEVEL` is `"20"` and is otherwise valid. -/
def pifApi20 : Pif :=
  { MANUFACTURER := "Google", MODEL := "Pixel", FINGERPRINT := "g/x",
    BRAND := "google", PRODUCT := "p", DEVICE := "d", SECURITY_PATCH := "",
    FIRST_API_LEVEL := some "20" }

/-- A profile whose `SECURITY_PATCH` is non-empty with length 3 and is
otherwise valid. -/
def pifPatchBad : Pif :=
  { MANUFACTURER := "Google", MODEL := "Pixel", FINGERPRINT := "g/x",
    BRAND := "google", PRODUCT := "p", DEVICE := "d", SECURITY_PATCH := "abc",
    FIRST_API_LEVEL := some "30" }

/-- A minimal legacy input that builds successfully. -/
def apiProps : PropMap :=
  [("ro.build.fingerprint", "g/x"), ("ro.product.device", "dev"),
   ("ro.build.version.sdk", "30")]

/-- The profile `build_pif` returns on `apiProps`. -/
def apiPif : Pif :=
  { MANUFACTURER := "Google", MODEL := "Unknown", FINGERPRINT := "g/x",
    BRAND := "google", PRODUCT := "dev", DEVICE := "dev", SECURITY_PATCH := "",
    FIRST_API_LEVEL := some "30" }

/-! ### Helper lemmas -/

theorem pyStrip_empty : pyStrip "" = "" := rfl

theorem chainGet_cons_skip (props : PropMap) (k : String) (ks : List String) (d : String)
    (h : getProp props k = none ∨ getProp props k = some "") :
    chainGet props (k :: ks) d = chainGet props ks d := by
  rcases h with h | h <;> simp [chainGet, h]

theorem chainGet_cons_take (props : PropMap) (k : String) (ks : List String) (d v : String)
    (hv : getProp props k = some v) (hne : v ≠ "") :
    chainGet props (k :: ks) d = v := by
  simp [chainGet, hv, hne]

theorem chainGet_default (props : PropMap) (ks : List String) (d : String)
    (h : ∀ k ∈ ks, ∀ v, getProp props k = some v → v = "") :
    chainGet props ks d = d := by
  induction ks with
  | nil => rfl
  | cons k ks ih =>
    have hrest : ∀ k' ∈ ks, ∀ v, getProp props k' = some v → v = "" := by
      intro k' hk' v hv
      exact h k' (List.mem_cons_of_mem _ hk') v hv
    cases hgk : getProp props k with
    | none => simpa [chainGet, hgk] using ih hrest
    | some v =>
      have hv : v = "" := h k (List.mem_cons_self _ _) v hgk
      subst hv
      simpa [chainGet, hgk] using ih hrest

theorem getProp_append_last (props : PropMap) (k v k' : String) :
    getProp (props ++ [(k, v)]) k' = if k = k' then some v else getProp props k' := by
  induction props with
  | nil => simp [getProp]
  | cons p rest ih =>
    obtain ⟨a, b⟩ := p
    by_cases hk : k = k'
    · subst hk
      simp [getProp, ih]
    · simp [getProp, ih, hk]

theorem validate_pif_ok_iff (fmt : OutputFormat) (pif : Pif) :
    validate_pif fmt pif = Except.ok () ↔
      firstEmptyRequired fmt pif = none ∧
      apiFieldOk pif.FIRST_API_LEVEL = true ∧
      apiFieldOk pif.DEVICE_INITIAL_SDK_INT = true ∧
      checkSecurityPatch pif.SECURITY_PATCH = true := by
  unfold validate_pif
  cases hfe : firstEmptyRequired fmt pif with
  | some f => simp
  | none =>
    by_cases h1 : apiFieldOk pif.FIRST_API_LEVEL <;>
      by_cases h2 : apiFieldOk pif.DEVICE_INITIAL_SDK_INT <;>
        by_cases h3 : checkSecurityPatch pif.SECURITY_PATCH <;>
          simp [h1, h2, h3]

theorem validate_pif_fails (fmt : OutputFormat) (pif : Pif)
    (h : ¬ (firstEmptyRequired fmt pif = none ∧
            apiFieldOk pif.FIRST_API_LEVEL = true ∧
            apiFieldOk pif.DEVICE_INITIAL_SDK_INT = true ∧
            checkSecurityPatch pif.SECURITY_PATCH = true)) :
    ∃ e, validate_pif fmt pif = Except.error e := by
  rcases hv : validate_pif fmt pif with e | u
  · exact ⟨e, rfl⟩
  · cases u
    rw [validate_pif_ok_iff] at hv
    exact absurd hv h

theorem build_pif_legacy_ok (props : PropMap) (pif : Pif)
    (h : build_pif_legacy props = Except.ok pif) :
    ∃ n : Int,
      pyInt (pyStrip (chainGet props legacyApiKeys "0")) = some n ∧
      pyStrip (chainGet props legacyFpKeys "") ≠ "" ∧
      pif = { MANUFACTURER := pyStrip (propGetD props "ro.product.manufacturer" "Google")
              MODEL := pyStrip (propGetD props "ro.product.model" "Unknown")
              FINGERPRINT := pyStrip (chainGet props legacyFpKeys "")
              BRAND := pyStrip (propGetD props "ro.product.brand" "google")
              PRODUCT := pyStrip (chainGet props legacyProductKeys "")
              DEVICE := pyStrip (chainGet props legacyDeviceKeys "")
              SECURITY_PATCH := pyStrip (chainGet props securityPatchKeys "")
              FIRST_API_LEVEL := some (toString n) } := by
  simp only [build_pif_legacy] at h
  split at h
  · simp at h
  · rename_i hfp
    split at h
    · simp at h
    · rename_i n hn
      split at h
      · simp at h
      · rw [Except.ok.injEq] at h
        exact ⟨n, hn, hfp, h.symm⟩

theorem build_pif_new_ok (props : PropMap) (pif : Pif)
    (h : build_pif_new props = Except.ok pif) :
    ∃ n : Int,
      pyInt (pyStrip (chainGet props newApiKeys "0")) = some n ∧
      pyStrip (chainGet props newFpKeys "") ≠ "" ∧
      pyStrip (chainGet props newBuildIdKeys "") ≠ "" ∧
      pif = { ID := some (pyStrip (chainGet props newBuildIdKeys ""))
              BRAND := pyStrip (chainGet props newBrandKeys "google")
              DEVICE := pyStrip (chainGet props newDeviceKeys "")
              MANUFACTURER := pyStrip (chainGet props newManufacturerKeys "Google")
              FINGERPRINT := pyStrip (chainGet props newFpKeys "")
              MODEL := pyStrip (chainGet props newModelKeys "Unknown")
              PRODUCT := pyStrip (chainGet props newProductKeys "")
              SECURITY_PATCH :=
                (if pyStrip (chainGet props securityPatchKeys "") = "" then
                  extract_security_patch (pyStrip (chainGet props newFpKeys ""))
                    (pyStrip (chainGet props newBuildIdKeys ""))
                else pyStrip (chainGet props securityPatchKeys ""))
              DEVICE_INITIAL_SDK_INT := some (toString n)
              TYPE := some (pyStrip (chainGet props newTypeKeys "user"))
              TAG := some (pyStrip (chainGet props newTagKeys "release-keys"))
              RELEASE := some (pyStrip (chainGet props newReleaseKeys ""))
              DEBUG := some (pyStrip (chainGet props newTypeKeys "user") = "userdebug" ||
                             pyStrip (chainGet props newTypeKeys "user") = "eng" ||
                             pyStrip (propGetD props "ro.debuggable" "0") = "1")
              spoofBuild := some "1"
              spoofProps := some "0"
              spoofProvider := some "0"
              spoofSignature := some "0"
              spoofVendingSdk := some "0"
              verboseLogs := some "0" } := by
  simp only [build_pif_new] at h
  split at h
  · simp at h
  · rename_i hfp
    split at h
    · simp at h
    · rename_i hbid
      split at h
      · simp at h
      · rename_i n hn
        split at h
        · simp at h
        · rw [Except.ok.injEq] at h
          exact ⟨n, hn, hfp, hbid, h.symm⟩

/-! ### Claims -/

/-- C2: whenever every fingerprint candidate key is absent or empty (either
schema), or (Extended only) every build-id candidate key is absent or empty,
`build_pif` aborts with a missing-required-field error and returns no
profile. -/
theorem c2_missing_required (fmt : OutputFormat) (props : PropMap)
    (h : (∀ k ∈ fpKeys fmt, ∀ v, getProp props k = some v → v = "") ∨
         (fmt = OutputFormat.new ∧
           ∀ k ∈ newBuildIdKeys, ∀ v, getProp props k = some v → v = "")) :
    ∃ f, build_pif fmt props = Except.error (BuildError.missingRequiredField f) := by
  rcases h with h | ⟨hfmt, h⟩
  · have hempty : chainGet props (fpKeys fmt) "" = "" := chainGet_default _ _ _ h
    cases fmt
    · exact ⟨"fingerprint",
        by simp [build_pif, build_pif_legacy, show chainGet props legacyFpKeys "" = "" from hempty, pyStrip_empty]⟩
    · exact ⟨"fingerprint",
        by simp [build_pif, build_pif_new, show chainGet props newFpKeys "" = "" from hempty, pyStrip_empty]⟩
  · subst hfmt
    by_cases hfp : pyStrip (chainGet props newFpKeys "") = ""
    · exact ⟨"fingerprint", by simp [build_pif, build_pif_new, hfp]⟩
    · have hbid : chainGet props newBuildIdKeys "" = "" := chainGet_default _ _ _ h
      exact ⟨"build ID", by simp [build_pif, build_pif_new, hfp, hbid, pyStrip_empty]⟩

/-- Witness for C2 at the empty property map (legacy schema). -/
theorem c2_missing_required_witness :
    ∃ f, build_pif OutputFormat.legacy [] =
      Except.error (BuildError.missingRequiredField f) :=
  c2_missing_required OutputFormat.legacy []
    (Or.inl (by intro k hk v hv; simp [getProp] at hv))

/-- C4 counterexample: on the spec's scenario A text, the profile that
`build_pif` returns has `PRODUCT = "sunfish"` (served by the
`ro.product.device` candidate), not `PRODUCT = ""` as the claim states. -/
theorem c4_scenarioA_counterexample :
    (build_pif OutputFormat.legacy (parse_system_prop scenarioAText)).toOption.map
        Pif.PRODUCT = some "sunfish" ∧
      some "sunfish" ≠ some ("" : String) :=
  ⟨by decide, by decide⟩

/-- C4 (amended): scenario A succeeds and returns exactly the claimed record
except that `PRODUCT` is `"sunfish"`. -/
theorem c4_scenarioA_amended :
    build_pif OutputFormat.legacy (parse_system_prop scenarioAText) =
      Except.ok scenarioAPif := rfl

/-- C5: the SDK-level rule: the integer check itself accepts exactly the
values parsing to an integer `≥ 21`; a profile whose `FIRST_API_LEVEL` or
`DEVICE_INITIAL_SDK_INT` value fails that check never validates; at the
boundary `"21"` passes the check and `"20"` fails it. -/
theorem c5_api_level_rule :
    (∀ s : String, checkApiLevel s = true ↔ ∃ n : Int, pyInt s = some n ∧ 21 ≤ n) ∧
    (∀ fmt (pif : Pif) s, pif.FIRST_API_LEVEL = some s → checkApiLevel s = false →
      ∃ e, validate_pif fmt pif = Except.error e) ∧
    (∀ fmt (pif : Pif) s, pif.DEVICE_INITIAL_SDK_INT = some s → checkApiLevel s = false →
      ∃ e, validate_pif fmt pif = Except.error e) ∧
    checkApiLevel "21" = true ∧ checkApiLevel "20" = false := by
  refine ⟨?_, ?_, ?_, by decide, by decide⟩
  · intro s
    unfold checkApiLevel
    cases h : pyInt s <;> simp [h]
  · intro fmt pif s hs hbad
    apply validate_pif_fails
    rintro ⟨-, h1, -, -⟩
    rw [hs] at h1
    simp [apiFieldOk, hbad] at h1
  · intro fmt pif s hs hbad
    apply validate_pif_fails
    rintro ⟨-, -, h2, -⟩
    rw [hs] at h2
    simp [apiFieldOk, hbad] at h2

/-- Witness for C5: a profile carrying `FIRST_API_LEVEL = "20"` fails
validation. -/
theorem c5_api_level_rule_witness :
    ∃ e, validate_pif OutputFormat.legacy pifApi20 = Except.error e :=
  c5_api_level_rule.2.1 OutputFormat.legacy pifApi20 "20" rfl (by decide)

/-- C6: a profile whose `SECURITY_PATCH` is non-empty with length other than
10 never validates; the security-patch rule itself accepts the empty string
and accepts every length-10 string (no calendar check). -/
theorem c6_patch_length_rule :
    (∀ fmt (pif : Pif), pif.SECURITY_PATCH ≠ "" → pif.SECURITY_PATCH.length ≠ 10 →
      ∃ e, validate_pif fmt pif = Except.error e) ∧
    checkSecurityPatch "" = true ∧
    (∀ s : String, s.length = 10 → checkSecurityPatch s = true) := by
  refine ⟨?_, by decide, ?_⟩
  · intro fmt pif hne hlen
    apply validate_pif_fails
    rintro ⟨-, -, -, h3⟩
    simp [checkSecurityPatch, hne, hlen] at h3
  · intro s hs
    simp [checkSecurityPatch, hs]

/-- Witness for C6: a profile with a three-character `SECURITY_PATCH` fails
validation. -/
theorem c6_patch_length_rule_witness :
    ∃ e, validate_pif OutputFormat.legacy pifPatchBad = Except.error e :=
  c6_patch_length_rule.1 OutputFormat.legacy pifPatchBad (by decide) (by decide)

/-- C1 counterexample: with the first direct security-patch candidate bound
to `" "` (whitespace-only) and the second to `"2025-01-01"`, the built
profile's `SECURITY_PATCH` is `""` — the whitespace-only value was selected
(Python truthiness precedes trimming), not skipped in favour of the next
candidate as the claim requires. -/
theorem c1_candidate_scan_counterexample :
    (build_pif OutputFormat.legacy c1props).toOption.map Pif.SECURITY_PATCH =
        some "" ∧
      (build_pif OutputFormat.legacy c1props).toOption.map Pif.SECURITY_PATCH ≠
        some "2025-01-01" :=
  ⟨by decide, by decide⟩

/-- C9 counterexample: `generate` removes *every* occurrence of `".zip"` from
the basename, so `"a.zipb.zip"` persists as `"Stable_PIF_ab.json"`, not as
the claim's `"Stable_PIF_a.zipb.json"`. -/
theorem c9_filename_counterexample :
    generate_filename "stable" "a.zipb.zip" = "Stable_PIF_ab.json" ∧
      ("Stable_PIF_ab.json" : String) ≠ "Stable_PIF_a.zipb.json" :=
  ⟨by decide, by decide⟩

theorem takeWhile_append_all (p : Char → Bool) (l1 l2 : List Char)
    (h : ∀ c ∈ l1, p c = true) :
    (l1 ++ l2).takeWhile p = l1 ++ l2.takeWhile p := by
  induction l1 with
  | nil => simp
  | cons c cs ih =>
    have hc : p c = true := h c (List.mem_cons_self _ _)
    simp [List.takeWhile_cons, hc, ih (fun c' hc' => h c' (List.mem_cons_of_mem _ hc'))]

theorem drop_len_cons (l1 : List Char) (x : Char) (l2 : List Char) :
    (l1 ++ x :: l2).drop (l1.length + 1) = l2 := by
  induction l1 with
  | nil => simp
  | cons c cs ih => simp [ih]

/-- C7: the parser strips each line, skips comment lines and lines without
`'='` (silently, never failing), splits a property line on the first `'='`,
strips key and value, and inserts so that the last occurrence of a duplicate
key wins. -/
theorem c7_parse_behavior :
    (∀ k v : String, k.data.contains '=' = false →
      splitFirstEq (k ++ "=" ++ v) = (k, v)) ∧
    (∀ (props : PropMap) (line : String),
      pyStrip line = "" ∨ startsWithHash (pyStrip line) = true ∨
        (pyStrip line).data.contains '=' = false →
      parseLine props line = props) ∧
    (∀ (props : PropMap) (k v k' : String),
      getProp (props ++ [(k, v)]) k' = if k = k' then some v else getProp props k') ∧
    parse_system_prop "# note\njunk line\na=1\na = 2\nb=x=y" =
      [("a", "1"), ("a", "2"), ("b", "x=y")] ∧
    getProp (parse_system_prop "# note\njunk line\na=1\na = 2\nb=x=y") "a" = some "2" := by
  refine ⟨?_, ?_, getProp_append_last, by decide, by decide⟩
  · intro k v h
    have hne : ('=' : Char) ∉ k.data := by simpa using h
    have hdata : (k ++ "=" ++ v).data = k.data ++ '=' :: v.data := by
      simp [String.data_append]
    have hall : ∀ c ∈ k.data, (decide (c ≠ '=')) = true := by
      intro c hc
      simp only [decide_eq_true_eq]
      intro hEq
      exact hne (hEq ▸ hc)
    have h0 : List.takeWhile (fun c => decide (c ≠ '=')) ('=' :: v.data) = [] := by
      simp [List.takeWhile_cons]
    simp only [splitFirstEq, hdata]
    rw [takeWhile_append_all _ _ _ hall, h0, List.append_nil, drop_len_cons]
  · intro props line h
    rcases h with h | h | h
    · have h0 : (pyStrip line).data.contains '=' = false := by rw [h]; decide
      simp only [parseLine]
      rw [h0]
      simp
    · simp only [parseLine]
      rw [h]
      simp
    · simp only [parseLine]
      rw [h]
      simp

/-- Witness for C7: splitting a line whose value itself contains `'='`. -/
theorem c7_parse_behavior_witness :
    splitFirstEq ("key" ++ "=" ++ "val=ue") = ("key", "val=ue") :=
  c7_parse_behavior.1 "key" "val=ue" (by decide)

/-- C1 (amended): each field scans its candidate keys in the documented
order, but a candidate is skipped only when absent or raw-empty — Python
truthiness precedes trimming, so a whitespace-only candidate is selected and
then trims to empty; legacy `MANUFACTURER` is a single `dict.get` whose
present value is used (trimmed) even when empty; the Extended fingerprint
prefers `ro.system_ext.build.fingerprint` whenever it is non-empty. -/
theorem c1_candidate_scan_amended :
    (∀ (props : PropMap) (k : String) (ks : List String) (d : String),
      getProp props k = none ∨ getProp props k = some "" →
      chainGet props (k :: ks) d = chainGet props ks d) ∧
    (∀ (props : PropMap) (k : String) (ks : List String) (d v : String),
      getProp props k = some v → v ≠ "" → chainGet props (k :: ks) d = v) ∧
    (∀ (props : PropMap) (pif : Pif),
      build_pif OutputFormat.new props = Except.ok pif →
      pif.FINGERPRINT = pyStrip (chainGet props newFpKeys "") ∧
      pif.MANUFACTURER = pyStrip (chainGet props newManufacturerKeys "Google") ∧
      pif.MODEL = pyStrip (chainGet props newModelKeys "Unknown") ∧
      pif.BRAND = pyStrip (chainGet props newBrandKeys "google")) ∧
    (∀ (props : PropMap) (pif : Pif),
      build_pif OutputFormat.legacy props = Except.ok pif →
      pif.MANUFACTURER = pyStrip (propGetD props "ro.product.manufacturer" "Google") ∧
      pif.SECURITY_PATCH = pyStrip (chainGet props securityPatchKeys "")) ∧
    (∀ (props : PropMap) (v : String) (pif : Pif),
      getProp props "ro.system_ext.build.fingerprint" = some v → v ≠ "" →
      build_pif OutputFormat.new props = Except.ok pif →
      pif.FINGERPRINT = pyStrip v) := by
  have hnew : ∀ (props : PropMap) (pif : Pif),
      build_pif OutputFormat.new props = Except.ok pif →
      pif.FINGERPRINT = pyStrip (chainGet props newFpKeys "") ∧
      pif.MANUFACTURER = pyStrip (chainGet props newManufacturerKeys "Google") ∧
      pif.MODEL = pyStrip (chainGet props newModelKeys "Unknown") ∧
      pif.BRAND = pyStrip (chainGet props newBrandKeys "google") := by
    intro props pif h
    simp only [build_pif] at h
    obtain ⟨n, -, -, -, hpif⟩ := build_pif_new_ok props pif h
    subst hpif
    exact ⟨rfl, rfl, rfl, rfl⟩
  refine ⟨chainGet_cons_skip, chainGet_cons_take, hnew, ?_, ?_⟩
  · intro props pif h
    simp only [build_pif] at h
    obtain ⟨n, -, -, hpif⟩ := build_pif_legacy_ok props pif h
    subst hpif
    exact ⟨rfl, rfl⟩
  · intro props v pif hv hne h
    have hfp := (hnew props pif h).1
    rw [hfp]
    have : chainGet props newFpKeys "" = v := by
      have hk : newFpKeys = "ro.system_ext.build.fingerprint" ::
          ["ro.system.build.fingerprint", "ro.build.fingerprint",
           "ro.product.build.fingerprint", "ro.bootimage.build.fingerprint",
           "ro.vendor.build.fingerprint", "ro.system_dlkm.build.fingerprint"] := rfl
      rw [hk]
      exact chainGet_cons_take props _ _ "" v hv hne
    rw [this]

/-- Witness for C1: a non-empty first candidate is selected by the chain. -/
theorem c1_candidate_scan_witness :
    chainGet [("k", "x")] ("k" :: ["j"]) "d" = "x" :=
  c1_candidate_scan_amended.2.1 [("k", "x")] "k" ["j"] "d" "x" (by decide) (by decide)

/-- C3: under the Extended schema with no direct security-patch property, the
derived `SECURITY_PATCH` is `extract_security_patch`, which consults the
build id first, only then the first fingerprint segment of the build-id
shape, yields `20YY-MM-DD` from the first match, and `""` when neither
matches; concretely, build id `BP3A.251005.004.B3` derives `2025-10-05`. -/
theorem c3_patch_derivation :
    (∀ fp bid t, bid ≠ "" → searchDate bid.data = some t →
      extract_security_patch fp bid = fmtDate t) ∧
    (∀ fp bid, bid ≠ "" → searchDate bid.data = none → fp ≠ "" →
      extract_security_patch fp bid =
        (match searchFpSeg fp.data with
         | some seg => ((searchDate seg).map fmtDate).getD ""
         | none => "")) ∧
    (∀ fp bid, bid ≠ "" → searchDate bid.data = none → searchFpSeg fp.data = none →
      extract_security_patch fp bid = "") ∧
    (∀ fp, extract_security_patch fp "BP3A.251005.004.B3" = "2025-10-05") ∧
    (∀ (props : PropMap) (pif : Pif),
      build_pif OutputFormat.new props = Except.ok pif →
      pyStrip (chainGet props securityPatchKeys "") = "" →
      pif.SECURITY_PATCH =
        extract_security_patch (pyStrip (chainGet props newFpKeys ""))
          (pyStrip (chainGet props newBuildIdKeys ""))) := by
  refine ⟨?_, ?_, ?_, ?_, ?_⟩
  · intro fp bid t hbid ht
    simp [extract_security_patch, hbid, ht]
  · intro fp bid hbid hnone hfp
    simp only [extract_security_patch, if_neg hbid, hnone, Option.map_none']
    cases hseg : searchFpSeg fp.data <;> simp [hfp, hseg]
  · intro fp bid hbid hnone hseg
    simp only [extract_security_patch, if_neg hbid, hnone, Option.map_none']
    by_cases hfp : fp = "" <;> simp [hfp, hseg]
  · intro fp
    simp only [extract_security_patch]
    rw [if_neg (by decide : ¬("BP3A.251005.004.B3" : String) = "")]
    rw [show searchDate ("BP3A.251005.004.B3" : String).data =
      some ("25", "10", "05") from by decide]
    rfl
  · intro props pif h hdirect
    simp only [build_pif] at h
    obtain ⟨n, -, -, -, hpif⟩ := build_pif_new_ok props pif h
    subst hpif
    simp only []
    rw [if_pos hdirect]

/-- Witness for C3: the build-id branch fires on the documented example. -/
theorem c3_patch_derivation_witness :
    extract_security_patch "" "BP3A.251005.004.B3" = fmtDate ("25", "10", "05") :=
  c3_patch_derivation.1 "" "BP3A.251005.004.B3" ("25", "10", "05") (by decide) (by decide)

theorem dateAt_shape (l : List Char) (y m d : String)
    (h : dateAt l = some (y, m, d)) :
    y.length = 2 ∧ m.length = 2 ∧ d.length = 2 := by
  rcases l with _ | ⟨c0, l⟩; · simp [dateAt] at h
  rcases l with _ | ⟨a, l⟩; · simp [dateAt] at h
  rcases l with _ | ⟨b, l⟩; · simp [dateAt] at h
  rcases l with _ | ⟨c, l⟩; · simp [dateAt] at h
  rcases l with _ | ⟨d', l⟩; · simp [dateAt] at h
  rcases l with _ | ⟨e, l⟩; · simp [dateAt] at h
  rcases l with _ | ⟨f, l⟩; · simp [dateAt] at h
  rcases l with _ | ⟨c7, l⟩; · simp [dateAt] at h
  simp only [dateAt] at h
  split at h
  · rw [Option.some.injEq, Prod.mk.injEq, Prod.mk.injEq] at h
    obtain ⟨hy, hm, hd⟩ := h
    subst hy; subst hm; subst hd
    exact ⟨rfl, rfl, rfl⟩
  · simp at h

theorem searchDate_shape (l : List Char) :
    ∀ y m d : String, searchDate l = some (y, m, d) →
      y.length = 2 ∧ m.length = 2 ∧ d.length = 2 := by
  induction l with
  | nil => intro y m d h; simp [searchDate] at h
  | cons c cs ih =>
    intro y m d h
    simp only [searchDate] at h
    cases hda : dateAt (c :: cs) with
    | some r =>
      rw [hda] at h
      simp only [Option.some.injEq] at h
      subst h
      exact dateAt_shape _ _ _ _ hda
    | none =>
      rw [hda] at h
      exact ih y m d h

theorem fmtDate_length (y m d : String)
    (hy : y.length = 2) (hm : m.length = 2) (hd : d.length = 2) :
    (fmtDate (y, m, d)).length = 10 := by
  simp [fmtDate, String.length_append, hy, hm, hd,
    show ("20" : String).length = 2 from rfl, show ("-" : String).length = 1 from rfl]

theorem extract_security_patch_cases (fp bid : String) :
    extract_security_patch fp bid = "" ∨
    (∃ t, searchDate bid.data = some t ∧ extract_security_patch fp bid = fmtDate t) ∨
    (∃ seg t, searchFpSeg fp.data = some seg ∧ searchDate seg = some t ∧
      extract_security_patch fp bid = fmtDate t) := by
  by_cases hbid : bid = ""
  · by_cases hfp : fp = ""
    · left; simp [extract_security_patch, hbid, hfp]
    · cases hseg : searchFpSeg fp.data with
      | none => left; simp [extract_security_patch, hbid, hfp, hseg]
      | some seg =>
        cases hsd : searchDate seg with
        | none => left; simp [extract_security_patch, hbid, hfp, hseg, hsd]
        | some t =>
          right; right
          exact ⟨seg, t, rfl, hsd,
            by simp [extract_security_patch, hbid, hfp, hseg, hsd]⟩
  · cases hsdb : searchDate bid.data with
    | some t =>
      right; left
      exact ⟨t, rfl, by simp [extract_security_patch, hbid, hsdb]⟩
    | none =>
      by_cases hfp : fp = ""
      · left; simp [extract_security_patch, hbid, hsdb, hfp]
      · cases hseg : searchFpSeg fp.data with
        | none => left; simp [extract_security_patch, hbid, hsdb, hfp, hseg]
        | some seg =>
          cases hsd : searchDate seg with
          | none => left; simp [extract_security_patch, hbid, hsdb, hfp, hseg, hsd]
          | some t =>
            right; right
            exact ⟨seg, t, rfl, hsd,
              by simp [extract_security_patch, hbid, hsdb, hfp, hseg, hsd]⟩

/-- C10: `extract_security_patch` returns either the empty string or a
ten-character `"20" ++ YY ++ "-" ++ MM ++ "-" ++ DD` string built from the
matched groups, so a derived non-empty `SECURITY_PATCH` always satisfies the
length-10 validation rule. -/
theorem c10_patch_shape : ∀ fp bid : String,
    (extract_security_patch fp bid = "" ∨
      ((extract_security_patch fp bid).length = 10 ∧
        ∃ y m d : String, y.length = 2 ∧ m.length = 2 ∧ d.length = 2 ∧
          extract_security_patch fp bid = "20" ++ y ++ "-" ++ m ++ "-" ++ d)) ∧
    checkSecurityPatch (extract_security_patch fp bid) = true := by
  intro fp bid
  have main : extract_security_patch fp bid = "" ∨
      ((extract_security_patch fp bid).length = 10 ∧
        ∃ y m d : String, y.length = 2 ∧ m.length = 2 ∧ d.length = 2 ∧
          extract_security_patch fp bid = "20" ++ y ++ "-" ++ m ++ "-" ++ d) := by
    rcases extract_security_patch_cases fp bid with h | ⟨t, hsd, h⟩ |
      ⟨seg, t, hseg, hsd, h⟩
    · exact Or.inl h
    · obtain ⟨y, m, d⟩ := t
      obtain ⟨hy, hm, hd⟩ := searchDate_shape _ _ _ _ hsd
      exact Or.inr ⟨h ▸ fmtDate_length y m d hy hm hd, y, m, d, hy, hm, hd, h⟩
    · obtain ⟨y, m, d⟩ := t
      obtain ⟨hy, hm, hd⟩ := searchDate_shape _ _ _ _ hsd
      exact Or.inr ⟨h ▸ fmtDate_length y m d hy hm hd, y, m, d, hy, hm, hd, h⟩
  refine ⟨main, ?_⟩
  rcases main with h | ⟨hlen, -⟩
  · rw [h]; rfl
  · simp [checkSecurityPatch, hlen]

theorem removeZip_append_zip (cs : List Char) (h : containsZip cs = false) :
    removeZip (cs ++ ['.', 'z', 'i', 'p']) = cs := by
  induction cs with
  | nil => rfl
  | cons c cs ih =>
    rw [containsZip, Bool.or_eq_false_iff] at h
    obtain ⟨hz, hrest⟩ := h
    rcases cs with _ | ⟨x1, cs⟩
    · simp [removeZip]
    rcases cs with _ | ⟨x2, cs⟩
    · by_cases hc : c = '.' <;> by_cases hx1 : x1 = 'z' <;>
        simp_all [removeZip, zipAtFront]
    rcases cs with _ | ⟨x3, cs⟩
    · by_cases hc : c = '.' <;> by_cases hx1 : x1 = 'z' <;> by_cases hx2 : x2 = 'i' <;>
        simp_all [removeZip, zipAtFront]
    · by_cases hc : c = '.' <;> by_cases hx1 : x1 = 'z' <;> by_cases hx2 : x2 = 'i' <;>
        by_cases hx3 : x3 = 'p' <;> simp_all [removeZip, zipAtFront]

/-- C9 (amended): the persisted filename is the `repo_type` prefix
(`EXPERIMENTAL_` for experimental, `Stable_PIF_` otherwise) followed by the
basename with *every* occurrence of `".zip"` removed, then `".json"`;
`repo_type` influences nothing but the prefix, and when `".zip"` occurs only
as the trailing suffix this agrees with stripping that suffix. -/
theorem c9_filename_amended :
    (∀ rt zn : String, generate_filename rt zn =
      prefixFor rt ++ String.mk (removeZip zn.data) ++ ".json") ∧
    (∀ rt : String,
      prefixFor rt = if rt = "experimental" then "EXPERIMENTAL_" else "Stable_PIF_") ∧
    (∀ rt stem : String, containsZip stem.data = false →
      generate_filename rt (stem ++ ".zip") = prefixFor rt ++ stem ++ ".json") := by
  refine ⟨fun rt zn => rfl, fun rt => rfl, ?_⟩
  intro rt stem h
  have hdata : (stem ++ ".zip").data = stem.data ++ ['.', 'z', 'i', 'p'] := by
    simp [String.data_append]
  simp only [generate_filename, hdata, removeZip_append_zip stem.data h]

/-- Witness for C9: a basename with a single trailing `".zip"`. -/
theorem c9_filename_witness :
    generate_filename "stable" ("pixel8" ++ ".zip") =
      prefixFor "stable" ++ "pixel8" ++ ".json" :=
  c9_filename_amended.2.2 "stable" "pixel8" (by decide)

theorem digitVal_digitChar (m : Nat) (h : m < 10) :
    digitVal (Nat.digitChar m) = m := by
  interval_cases m <;> decide

theorem isDigit_digitChar (m : Nat) (h : m < 10) :
    (Nat.digitChar m).isDigit = true := by
  interval_cases m <;> decide

theorem toDigitsCore_spec : ∀ (fuel n : Nat) (ds : List Char), n < fuel →
    ∃ l, Nat.toDigitsCore 10 fuel n ds = l ++ ds ∧ l ≠ [] ∧
      (∀ c ∈ l, c.isDigit = true) ∧
      ∀ acc, l.foldl digitStep acc = acc * tenPow n + n := by
  intro fuel
  induction fuel with
  | zero => intro n ds h; omega
  | succ fuel ih =>
    intro n ds h
    by_cases h10 : n / 10 = 0
    · have hlt : n < 10 := by
        by_contra hc
        push_neg at hc
        have h1 : 1 ≤ n / 10 := (Nat.one_le_div_iff (by norm_num)).mpr hc
        omega
      refine ⟨[Nat.digitChar (n % 10)], ?_, by simp, ?_, ?_⟩
      · simp [Nat.toDigitsCore, h10]
      · intro c hc
        rw [List.mem_singleton] at hc
        subst hc
        exact isDigit_digitChar _ (Nat.mod_lt _ (by norm_num))
      · intro acc
        have hpow : tenPow n = 10 := by rw [tenPow]; simp [hlt]
        simp [List.foldl, digitStep, Nat.mod_eq_of_lt hlt, digitVal_digitChar _ hlt, hpow]
    · have hge : 10 ≤ n := by
        by_contra hcon
        exact h10 (Nat.div_eq_of_lt (by omega))
      have hn10 : n / 10 < fuel := by
        have h1 : n / 10 < n := Nat.div_lt_self (by omega) (by norm_num)
        omega
      obtain ⟨l, hl, hne, hdig, hval⟩ := ih (n / 10) (Nat.digitChar (n % 10) :: ds) hn10
      refine ⟨l ++ [Nat.digitChar (n % 10)], ?_, by simp [hne], ?_, ?_⟩
      · rw [Nat.toDigitsCore]
        simp only [h10, if_false]
        rw [hl]
        simp
      · intro c hc
        rcases List.mem_append.mp hc with hc | hc
        · exact hdig c hc
        · rw [List.mem_singleton] at hc
          subst hc
          exact isDigit_digitChar _ (Nat.mod_lt _ (by norm_num))
      · intro acc
        rw [List.foldl_append]
        have hd : List.foldl digitStep (acc * tenPow (n / 10) + n / 10) [Nat.digitChar (n % 10)] =
            (acc * tenPow (n / 10) + n / 10) * 10 + n % 10 := by
          simp [List.foldl, digitStep, digitVal_digitChar _ (Nat.mod_lt n (by norm_num))]
        rw [hval acc, hd]
        have hnlt : ¬ n < 10 := by omega
        have ht : tenPow n = 10 * tenPow (n / 10) := by
          rw [tenPow]; simp [hnlt]
        have hdm : n / 10 * 10 + n % 10 = n := by
          rw [Nat.mul_comm]; exact Nat.div_add_mod n 10
        have hstep : (acc * tenPow (n / 10) + n / 10) * 10 + n % 10 =
            acc * (10 * tenPow (n / 10)) + (n / 10 * 10 + n % 10) := by ring
        rw [hstep, hdm, ht]

theorem digitsVal_cons_digit (acc : Nat) (c : Char) (cs : List Char)
    (hc : c.isDigit = true) :
    digitsVal acc (c :: cs) = digitsVal (acc * 10 + digitVal c) cs := by
  rw [digitsVal.eq_def]
  split
  · rename_i heq
    simp at heq
  · rename_i c' cs' heq
    injection heq with h1 h2
    subst h1
    subst h2
    rw [if_pos hc]

theorem digitsVal_all (l : List Char) : ∀ acc, (∀ c ∈ l, c.isDigit = true) →
    digitsVal acc l = some (l.foldl digitStep acc) := by
  induction l with
  | nil => intro acc h; rfl
  | cons c cs ih =>
    intro acc h
    have hc : c.isDigit = true := h c (List.mem_cons_self _ _)
    rw [digitsVal_cons_digit _ _ _ hc, List.foldl_cons,
      show digitStep acc c = acc * 10 + digitVal c from rfl]
    exact ih _ (fun c' hc' => h c' (List.mem_cons_of_mem _ hc'))

theorem startDigits_toDigits (n : Nat) :
    startDigits (Nat.toDigits 10 n) = some n := by
  obtain ⟨l, hl, hne, hdig, hval⟩ := toDigitsCore_spec (n + 1) n [] (by omega)
  rw [Nat.toDigits, hl, List.append_nil]
  rcases l with _ | ⟨c, cs⟩
  · exact absurd rfl hne
  · have hc : c.isDigit = true := hdig c (List.mem_cons_self _ _)
    have hcs : ∀ c' ∈ cs, c'.isDigit = true :=
      fun c' hc' => hdig c' (List.mem_cons_of_mem _ hc')
    rw [startDigits, if_pos hc, digitsVal_all cs _ hcs]
    have := hval 0
    rw [List.foldl_cons] at this
    have hstep : digitStep 0 c = digitVal c := by simp [digitStep]
    rw [hstep] at this
    rw [this]
    simp

theorem isDigit_not_special (c : Char) (h : c.isDigit = true) :
    isPySpace c = false ∧ c ≠ '+' ∧ c ≠ '-' := by
  refine ⟨?_, ?_, ?_⟩
  · by_contra hs
    rw [Bool.not_eq_false] at hs
    simp only [isPySpace, Bool.or_eq_true, decide_eq_true_eq] at hs
    rcases hs with ((((h' | h') | h') | h') | h') | h' <;>
      (subst h'; exact absurd h (by decide))
  · intro h'
    subst h'
    exact absurd h (by decide)
  · intro h'
    subst h'
    exact absurd h (by decide)

theorem dropWhile_no (p : Char → Bool) (l : List Char) (h : ∀ c ∈ l, p c = false) :
    l.dropWhile p = l := by
  cases l with
  | nil => rfl
  | cons c cs => simp [List.dropWhile_cons, h c (List.mem_cons_self _ _)]

theorem trimChars_no_space (l : List Char) (h : ∀ c ∈ l, isPySpace c = false) :
    trimChars l = l := by
  unfold trimChars
  rw [dropWhile_no _ _ h]
  rw [dropWhile_no _ _ (fun c hc => h c (List.mem_reverse.mp hc))]
  simp

theorem pyInt_natRepr (m : Nat) : pyInt (Nat.repr m) = some (m : Int) := by
  obtain ⟨l, hl, hne, hdig, hval⟩ := toDigitsCore_spec (m + 1) m [] (by omega)
  have hl2 : Nat.toDigits 10 m = l := by
    rw [Nat.toDigits, hl, List.append_nil]
  have hdata : (Nat.repr m).data = Nat.toDigits 10 m := rfl
  rw [pyInt, hdata, hl2]
  rw [trimChars_no_space _ (fun c hc => (isDigit_not_special c (hdig c hc)).1)]
  rcases l with _ | ⟨c, cs⟩
  · exact absurd rfl hne
  · have hc : c.isDigit = true := hdig c (List.mem_cons_self _ _)
    obtain ⟨-, hplus, hminus⟩ := isDigit_not_special c hc
    simp only [pyIntChars]
    rw [if_neg hplus, if_neg hminus]
    rw [← hl2, startDigits_toDigits]
    rfl

theorem pyInt_toString_int (n : Int) : pyInt (toString n) = some n := by
  cases n with
  | ofNat m => exact pyInt_natRepr m
  | negSucc m =>
    have hdata : (toString (Int.negSucc m)).data = '-' :: Nat.toDigits 10 (m + 1) := rfl
    rw [pyInt, hdata]
    obtain ⟨l, hl, hne, hdig, hval⟩ := toDigitsCore_spec (m + 2) (m + 1) [] (by omega)
    have hnospace : ∀ c ∈ '-' :: Nat.toDigits 10 (m + 1), isPySpace c = false := by
      intro c hc
      rcases List.mem_cons.mp hc with hc | hc
      · subst hc; decide
      · rw [Nat.toDigits, hl, List.append_nil] at hc
        exact (isDigit_not_special c (hdig c hc)).1
    rw [trimChars_no_space _ hnospace]
    rw [pyIntChars]
    simp only [if_neg (by decide : ¬('-' : Char) = '+'), if_pos rfl]
    rw [startDigits_toDigits]
    simp [Int.negSucc_eq]

/-- C8: in every profile `build_pif` returns, the stored
`FIRST_API_LEVEL` (legacy) and `DEVICE_INITIAL_SDK_INT` (extended) strings
are canonical base-10 renderings: parsing then re-stringifying returns the
stored string unchanged. -/
theorem c8_sdk_canonical :
    ∀ (fmt : OutputFormat) (props : PropMap) (pif : Pif),
      build_pif fmt props = Except.ok pif →
      (∀ s, pif.FIRST_API_LEVEL = some s →
        ∃ n : Int, pyInt s = some n ∧ toString n = s) ∧
      (∀ s, pif.DEVICE_INITIAL_SDK_INT = some s →
        ∃ n : Int, pyInt s = some n ∧ toString n = s) := by
  intro fmt props pif h
  cases fmt with
  | legacy =>
    simp only [build_pif] at h
    obtain ⟨n, -, -, hpif⟩ := build_pif_legacy_ok props pif h
    subst hpif
    constructor
    · intro s hs
      have h' : toString n = s := Option.some.inj hs
      exact ⟨n, h' ▸ pyInt_toString_int n, h'⟩
    · intro s hs
      exact Option.noConfusion hs
  | new =>
    simp only [build_pif] at h
    obtain ⟨n, -, -, -, hpif⟩ := build_pif_new_ok props pif h
    subst hpif
    constructor
    · intro s hs
      exact Option.noConfusion hs
    · intro s hs
      have h' : toString n = s := Option.some.inj hs
      exact ⟨n, h' ▸ pyInt_toString_int n, h'⟩

/-- Witness for C8 on a minimal successful legacy build. -/
theorem c8_sdk_canonical_witness :
    ∃ n : Int, pyInt "30" = some n ∧ toString n = "30" :=
  (c8_sdk_canonical OutputFormat.legacy apiProps apiPif rfl).1 "30" rfl
